import Mathlib

/-!
# Verification of the addon-framework registration-and-liveness control plane

A shallow embedding, in Lean 4, of the reconcilers of the
`addon-framework` repository (hub deploy / config / CSR-approval
controllers, spoke certificate-manager and lease controllers, and the
shared status-update helpers), together with theorems checking the
natural-language specification against the embedded code.

Conventions used throughout:
* Kubernetes objects are plain Lean structures; only the fields the
  embedded code reads or writes are modelled.
* `metav1.Time` / `MicroTime` values are modelled as integers counting
  seconds; `time.Duration` arithmetic of the form
  `time.Duration(n) * time.Second` therefore becomes plain integer
  arithmetic on `n`.
* Go maps of type `map[string]string` are modelled as association lists
  (`List (String × String)`) looked up on the first matching key; a Go
  map read of a missing key yields `""`, modelled by `getD _ ""`.
* A reconcile pass is a pure function from the relevant slice of
  storage to the list of writes it issues plus its returned error;
  writes are explicit constructors so that "performs no writes" is the
  proposition that the list of writes is empty.
-/

namespace AddonFramework

/-- Association-list lookup, first match wins (Go map read). -/
def lookupA (m : List (String × String)) (k : String) : Option String :=
  match m with
  | [] => none
  | (k', v) :: rest => if k' = k then some v else lookupA rest k

/-- Go map read `m[k]`: the empty string when the key is absent. -/
def getA (m : List (String × String)) (k : String) : String :=
  (lookupA m k).getD ""

/-- Go map write `m[k] = v`: replace the first binding of `k`, or append. -/
def setA (m : List (String × String)) (k v : String) : List (String × String) :=
  match m with
  | [] => [(k, v)]
  | (k', v') :: rest => if k' = k then (k, v) :: rest else (k', v') :: setA rest k v

/-- A status condition (`metav1.Condition`).  `lastTransitionTime` is
`none` for the zero time. -/
structure Condition where
  ctype : String
  status : String
  reason : String
  message : String
  lastTransitionTime : Option Int
deriving DecidableEq, Repr

/-- `ManagedClusterAddOnStatus`: the conditions list. -/
structure AddonStatus where
  conditions : List Condition
deriving DecidableEq, Repr

/-- A `ManagedClusterAddOn` object, restricted to the fields the
embedded controllers read or write.  `deletionTimestamp = none` models
`DeletionTimestamp.IsZero()`. -/
structure Addon where
  name : String
  namespace_ : String
  annotations : List (String × String)
  finalizers : List String
  deletionTimestamp : Option Int
  status : AddonStatus
deriving DecidableEq, Repr

/-- Deploy finalizer constant (`agentdeploy/controller.go`). -/
def addonFinalizer : String := "addon.open-cluster-management.io/work-cleanup"

/-- Hub registration finalizer constant (`registration/agentdeploy.go`). -/
def registrationFinalizer : String := "addon.open-cluster-management.io/registration-cleanup"

/-- Spoke registration finalizer constant
(`clientcertmanager/certificate_manager_controller.go`). -/
def spokeRegistrationFinalizer : String := "addonregistration.open-cluster-management.io"

/-- Shared body of `removeAddonFinalizer` / `removeRegistrationFinalizer`:
copy every finalizer other than `fin`; if the length changed, issue an
update carrying the copied list (returned as `some`), else no write
(`none`).  Both Go functions are this text with `fin` instantiated to
their package's finalizer constant. -/
def removeFinalizerBody (fin : String) (addon : Addon) : Option Addon :=
  let copiedFinalizers := addon.finalizers.filter (fun f => f ≠ fin)
  if addon.finalizers.length ≠ copiedFinalizers.length then
    some { addon with finalizers := copiedFinalizers }
  else
    none

/-- `addonDeployController.removeAddonFinalizer`. -/
def removeAddonFinalizer (addon : Addon) : Option Addon :=
  removeFinalizerBody addonFinalizer addon

/-- `registrationAgentDeployController.removeRegistrationFinalizer`. -/
def removeRegistrationFinalizer (addon : Addon) : Option Addon :=
  removeFinalizerBody registrationFinalizer addon

lemma filterNe_length_ne_iff (fin : String) (l : List String) :
    l.length ≠ (l.filter (fun f => f ≠ fin)).length ↔ fin ∈ l := by
  constructor
  · intro h
    by_contra hmem
    have heq : l.filter (fun f => f ≠ fin) = l := by
      apply List.filter_eq_self.mpr
      intro a ha
      simp only [ne_eq, decide_not, Bool.not_eq_true', decide_eq_false_iff_not]
      intro he
      exact hmem (he ▸ ha)
    rw [heq] at h
    exact h rfl
  · intro hmem h
    have hsub : List.Sublist (l.filter (fun f => f ≠ fin)) l := List.filter_sublist l
    have heq : l.filter (fun f => f ≠ fin) = l := hsub.eq_of_length h.symm
    have := List.filter_eq_self.mp heq fin hmem
    simp at this

lemma removeFinalizerBody_none_iff (fin : String) (a : Addon) :
    removeFinalizerBody fin a = none ↔ fin ∉ a.finalizers := by
  simp only [removeFinalizerBody]
  by_cases h : a.finalizers.length ≠ (a.finalizers.filter (fun f => f ≠ fin)).length
  · rw [if_pos h]
    simp [(filterNe_length_ne_iff fin a.finalizers).mp h]
  · rw [if_neg h]
    have : fin ∉ a.finalizers := by
      intro hmem
      exact h ((filterNe_length_ne_iff fin a.finalizers).mpr hmem)
    simp [this]

lemma removeFinalizerBody_some_iff (fin : String) (a : Addon) (a' : Addon) :
    removeFinalizerBody fin a = some a' ↔
      fin ∈ a.finalizers ∧
        a' = { a with finalizers := a.finalizers.filter (fun f => f ≠ fin) } := by
  simp only [removeFinalizerBody]
  by_cases h : a.finalizers.length ≠ (a.finalizers.filter (fun f => f ≠ fin)).length
  · rw [if_pos h]
    constructor
    · intro he
      exact ⟨(filterNe_length_ne_iff fin a.finalizers).mp h, (Option.some_inj.mp he).symm⟩
    · intro ⟨_, he⟩
      exact congrArg some he.symm
  · rw [if_neg h]
    constructor
    · intro he
      exact absurd he (by simp)
    · intro ⟨hmem, _⟩
      exact absurd ((filterNe_length_ne_iff fin a.finalizers).mpr hmem) h

/-- A sample add-on object used to instantiate hypothesis-bearing theorems. -/
def witnessAddon : Addon :=
  { name := "testaddon"
    namespace_ := "testcluster"
    annotations := []
    finalizers := ["a", addonFinalizer, "b", registrationFinalizer]
    deletionTimestamp := none
    status := ⟨[]⟩ }

/-- C9: the finalizer-removal operations of the deploy and registration
reconcilers remove exactly the occurrences of their own finalizer string,
preserve the relative order of the remaining finalizers, leave every
other field of the add-on unchanged, and issue an update write iff that
finalizer was present. -/
theorem finalizer_removal_exact (a a' : Addon) :
    (removeAddonFinalizer a = none ↔ addonFinalizer ∉ a.finalizers) ∧
    (removeAddonFinalizer a = some a' →
      a'.finalizers = a.finalizers.filter (fun f => f ≠ addonFinalizer) ∧
      a'.name = a.name ∧ a'.namespace_ = a.namespace_ ∧
      a'.annotations = a.annotations ∧
      a'.deletionTimestamp = a.deletionTimestamp ∧ a'.status = a.status) ∧
    (removeRegistrationFinalizer a = none ↔ registrationFinalizer ∉ a.finalizers) ∧
    (removeRegistrationFinalizer a = some a' →
      a'.finalizers = a.finalizers.filter (fun f => f ≠ registrationFinalizer) ∧
      a'.name = a.name ∧ a'.namespace_ = a.namespace_ ∧
      a'.annotations = a.annotations ∧
      a'.deletionTimestamp = a.deletionTimestamp ∧ a'.status = a.status) := by
  refine ⟨removeFinalizerBody_none_iff _ a, ?_, removeFinalizerBody_none_iff _ a, ?_⟩
  · intro h
    have := (removeFinalizerBody_some_iff addonFinalizer a a').mp h
    rw [this.2]
    exact ⟨rfl, rfl, rfl, rfl, rfl, rfl⟩
  · intro h
    have := (removeFinalizerBody_some_iff registrationFinalizer a a').mp h
    rw [this.2]
    exact ⟨rfl, rfl, rfl, rfl, rfl, rfl⟩

/-- Witness instantiating `finalizer_removal_exact` on `witnessAddon`,
discharging both update-write hypotheses at concrete inputs. -/
theorem finalizer_removal_exact_witness :
    ({ witnessAddon with finalizers := ["a", "b", registrationFinalizer] } : Addon).finalizers =
        witnessAddon.finalizers.filter (fun f => f ≠ addonFinalizer) ∧
      ({ witnessAddon with finalizers := ["a", addonFinalizer, "b"] } : Addon).finalizers =
        witnessAddon.finalizers.filter (fun f => f ≠ registrationFinalizer) :=
  ⟨((finalizer_removal_exact witnessAddon
      { witnessAddon with finalizers := ["a", "b", registrationFinalizer] }).2.1
      (by decide)).1,
   ((finalizer_removal_exact witnessAddon
      { witnessAddon with finalizers := ["a", addonFinalizer, "b"] }).2.2.2
      (by decide)).1⟩

/-! ## Deploy controller (`pkg/addonmanager/agentdeploy/controller.go`) -/

/-- Label key `AddonWorkLabel` linking a manifest work to its add-on. -/
def AddonWorkLabel : String := "open-cluster-management.io/addon-name"

/-- A `ManifestWork` (delivery envelope).  Each manifest is its
`RawExtension.Raw` byte string, modelled as a list of bytes. -/
structure ManifestWork where
  name : String
  namespace_ : String
  labels : List (String × String)
  resourceVersion : String
  manifests : List (List Nat)
  deletionTimestamp : Option Int
deriving DecidableEq, Repr

/-- `helpers.ManifestsEqual`: length check, then element-wise
`DeepEqual` of the `Raw` bytes. -/
def ManifestsEqual (newM oldM : List (List Nat)) : Bool :=
  if newM.length ≠ oldM.length then false
  else (newM.zip oldM).all (fun p => p.1 = p.2)

/-- The slice of storage a deploy reconcile reads: whether the
`ManagedCluster` exists, the `(cluster, addon)` `ManagedClusterAddOn`,
and the manifest works of the cluster namespace. -/
structure DeployView where
  clusterExists : Bool
  addon : Option Addon
  works : List ManifestWork
deriving DecidableEq, Repr

/-- A write issued by the deploy reconciler. -/
inductive DeployWrite where
  | updateAddon (a : Addon)
  | createWork (w : ManifestWork)
  | updateWork (w : ManifestWork)
  | deleteWork (namespace_ : String) (name : String)
deriving DecidableEq, Repr

/-- Outcome of one reconcile: the writes in program order and the
returned error (`none` = nil). -/
structure DeployResult where
  writes : List DeployWrite
  err : Option String
deriving DecidableEq, Repr

/-- `Get` of a manifest work by name from the cluster namespace. -/
def getWork (works : List ManifestWork) (n : String) : Option ManifestWork :=
  works.find? (fun w => w.name = n)

/-- Lister query: manifest works labelled `AddonWorkLabel = addonName`. -/
def listWorksByLabel (works : List ManifestWork) (addonName : String) : List ManifestWork :=
  works.filter (fun w => getA w.labels AddonWorkLabel = addonName)

/-- `addonDeployController.buildManifestWorkFromObject`.  The agent
objects arrive already encoded to raw JSON (`runtime.Encode` with the
unstructured JSON scheme is external to this repository); the work's
payload is those byte strings in order.  Returns `none` (work `nil`)
for an empty object list. -/
def buildManifestWorkFromObject (addonName cluster : String)
    (objects : List (List Nat)) : Option ManifestWork :=
  if objects.length = 0 then none
  else
    some
      { name := "addon-" ++ addonName ++ "-deploy"
        namespace_ := cluster
        labels := [(AddonWorkLabel, addonName)]
        resourceVersion := ""
        manifests := objects
        deletionTimestamp := none }

/-- `addonDeployController.removeAddonResources`: list works labelled
for the add-on; if none, succeed; otherwise delete every one without a
deletion timestamp and return the "still being deleted" error. -/
def removeAddonResources (addonName clusterName : String)
    (works : List ManifestWork) : List DeployWrite × Option String :=
  let ws := listWorksByLabel works addonName
  if ws.length = 0 then ([], none)
  else
    ((ws.filter (fun w => w.deletionTimestamp = none)).map
        (fun w => DeployWrite.deleteWork clusterName w.name),
      some (toString ws.length ++ " of work relating to the addon " ++ addonName ++
        " is still being deleted"))

/-- `addonDeployController.sync`.  The `ClusterManagementAddOn` get and
the configuration lookup are reads feeding the manifest supplier; their
joint output is the `objects` argument (the supplier is an opaque
interface).  Error paths of those reads are not modelled since no claim
concerns them. -/
def addonDeploySync (addonName clusterName : String) (objects : List (List Nat))
    (v : DeployView) : DeployResult :=
  if ¬v.clusterExists then ⟨[], none⟩
  else
    match v.addon with
    | none => ⟨[], none⟩
    | some addon =>
      if addon.deletionTimestamp = none ∧ addonFinalizer ∉ addon.finalizers then
        ⟨[DeployWrite.updateAddon { addon with finalizers := addon.finalizers ++ [addonFinalizer] }],
          none⟩
      else if addon.deletionTimestamp ≠ none then
        let rr := removeAddonResources addonName clusterName v.works
        match rr.2 with
        | some e => ⟨rr.1, some e⟩
        | none =>
          match removeAddonFinalizer addon with
          | some a' => ⟨rr.1 ++ [DeployWrite.updateAddon a'], none⟩
          | none => ⟨rr.1, none⟩
      else
        match buildManifestWorkFromObject addonName clusterName objects with
        | none => ⟨[], none⟩
        | some work =>
          match getWork v.works work.name with
          | none => ⟨[DeployWrite.createWork work], none⟩
          | some existingWork =>
            if ManifestsEqual existingWork.manifests work.manifests then ⟨[], none⟩
            else
              ⟨[DeployWrite.updateWork { work with resourceVersion := existingWork.resourceVersion }],
                none⟩

/-- Effect of one deploy write on the observed storage slice.  An update
replaces works of the same name; a delete marks the deletion timestamp
(the object lingers until its own finalizers clear). -/
def applyDeployWrite (v : DeployView) : DeployWrite → DeployView
  | .updateAddon a => { v with addon := some a }
  | .createWork w => { v with works := v.works ++ [w] }
  | .updateWork w =>
      { v with works := v.works.map (fun w0 => if w0.name = w.name then w else w0) }
  | .deleteWork ns n =>
      { v with
          works := v.works.map fun w0 =>
            if w0.namespace_ = ns ∧ w0.name = n then
              { w0 with deletionTimestamp := some 0 }
            else w0 }

/-- Storage state after all writes of a reconcile land. -/
def applyDeployWrites (v : DeployView) (ws : List DeployWrite) : DeployView :=
  ws.foldl applyDeployWrite v

lemma zip_self_all_eq (m : List (List Nat)) :
    (m.zip m).all (fun p => p.1 = p.2) = true := by
  induction m with
  | nil => rfl
  | cons x xs ih => simpa using ih

lemma ManifestsEqual_refl (m : List (List Nat)) : ManifestsEqual m m = true := by
  unfold ManifestsEqual
  rw [if_neg (by simp)]
  exact zip_self_all_eq m

/-- In the steady state (cluster and non-deleting finalized add-on
present) the deploy reconcile reduces to the create-or-update step. -/
lemma addonDeploySync_steady (addonName clusterName : String)
    (objects : List (List Nat)) (v : DeployView) (a : Addon)
    (hc : v.clusterExists = true) (ha : v.addon = some a)
    (hdt : a.deletionTimestamp = none) (hfin : addonFinalizer ∈ a.finalizers) :
    addonDeploySync addonName clusterName objects v =
      match buildManifestWorkFromObject addonName clusterName objects with
      | none => ⟨[], none⟩
      | some work =>
        match getWork v.works work.name with
        | none => ⟨[DeployWrite.createWork work], none⟩
        | some existingWork =>
          if ManifestsEqual existingWork.manifests work.manifests then ⟨[], none⟩
          else
            ⟨[DeployWrite.updateWork { work with resourceVersion := existingWork.resourceVersion }],
              none⟩ := by
  unfold addonDeploySync
  rw [ha]
  simp [hc, hdt, hfin]

/-- With a non-zero deletion timestamp the deploy reconcile reduces to
the teardown step. -/
lemma addonDeploySync_deleting (addonName clusterName : String)
    (objects : List (List Nat)) (v : DeployView) (a : Addon)
    (hc : v.clusterExists = true) (ha : v.addon = some a)
    (hdt : a.deletionTimestamp ≠ none) :
    addonDeploySync addonName clusterName objects v =
      (let rr := removeAddonResources addonName clusterName v.works
       match rr.2 with
       | some e => ⟨rr.1, some e⟩
       | none =>
         match removeAddonFinalizer a with
         | some a' => ⟨rr.1 ++ [DeployWrite.updateAddon a'], none⟩
         | none => ⟨rr.1, none⟩) := by
  unfold addonDeploySync
  rw [ha]
  simp [hc, hdt]

/-- The create-or-update step of the deploy reconcile, as a function of
the built envelope and the result of the `Get` on the existing one. -/
def stepEnvelope (work : ManifestWork) (found : Option ManifestWork) : DeployResult :=
  match found with
  | none => ⟨[DeployWrite.createWork work], none⟩
  | some existingWork =>
    if ManifestsEqual existingWork.manifests work.manifests then ⟨[], none⟩
    else
      ⟨[DeployWrite.updateWork { work with resourceVersion := existingWork.resourceVersion }],
        none⟩

lemma getWork_map_replace (works : List ManifestWork) (w' ex : ManifestWork)
    (hex : getWork works w'.name = some ex) :
    getWork (works.map (fun w0 => if w0.name = w'.name then w' else w0)) w'.name =
      some w' := by
  induction works with
  | nil => simp [getWork] at hex
  | cons w0 rest ih =>
    by_cases h0 : w0.name = w'.name
    · simp [getWork, h0]
    · simp [getWork, h0] at hex ih ⊢
      exact ih hex

/-- C4: on a deleting add-on the deploy reconcile lists the labelled
envelopes, deletes every listed envelope without a deletion timestamp,
returns a non-nil error whenever the list is non-empty, and removes the
deploy finalizer (iff present) only once the list is empty. -/
theorem deploy_teardown_deletes_then_finalizer
    (addonName clusterName : String) (objects : List (List Nat))
    (v : DeployView) (a : Addon)
    (hc : v.clusterExists = true) (ha : v.addon = some a)
    (hdt : a.deletionTimestamp ≠ none) :
    (listWorksByLabel v.works addonName ≠ [] →
      (addonDeploySync addonName clusterName objects v).err ≠ none ∧
      (addonDeploySync addonName clusterName objects v).writes =
        ((listWorksByLabel v.works addonName).filter
            (fun w => w.deletionTimestamp = none)).map
          (fun w => DeployWrite.deleteWork clusterName w.name)) ∧
    (listWorksByLabel v.works addonName = [] →
      (addonDeploySync addonName clusterName objects v).err = none ∧
      (addonDeploySync addonName clusterName objects v).writes =
        (if addonFinalizer ∈ a.finalizers then
          [DeployWrite.updateAddon
            { a with finalizers := a.finalizers.filter (fun f => f ≠ addonFinalizer) }]
        else [])) := by
  rw [addonDeploySync_deleting addonName clusterName objects v a hc ha hdt]
  constructor
  · intro hne
    have hlen : ¬(listWorksByLabel v.works addonName).length = 0 := by
      simpa [List.length_eq_zero] using hne
    simp [removeAddonResources, hlen]
  · intro hemp
    have hlen : (listWorksByLabel v.works addonName).length = 0 := by
      simp [hemp]
    by_cases hfin : addonFinalizer ∈ a.finalizers
    · have hsome := (removeFinalizerBody_some_iff addonFinalizer a
        { a with finalizers := a.finalizers.filter (fun f => f ≠ addonFinalizer) }).mpr
        ⟨hfin, rfl⟩
      simp [removeAddonResources, hlen, hemp, removeAddonFinalizer, hsome, hfin]
    · have hnone := (removeFinalizerBody_none_iff addonFinalizer a).mpr hfin
      simp [removeAddonResources, hlen, hemp, removeAddonFinalizer, hnone, hfin]

/-- A manifest work labelled for `testaddon`, used in witnesses. -/
def wWork : ManifestWork :=
  { name := "addon-testaddon-deploy"
    namespace_ := "testcluster"
    labels := [(AddonWorkLabel, "testaddon")]
    resourceVersion := "1"
    manifests := [[1, 2]]
    deletionTimestamp := none }

/-- `witnessAddon` marked as deleting. -/
def wDeletingAddon : Addon := { witnessAddon with deletionTimestamp := some 3 }

/-- Deploy view with a deleting add-on and one labelled envelope. -/
def wViewDel : DeployView :=
  { clusterExists := true, addon := some wDeletingAddon, works := [wWork] }

/-- Witness instantiating `deploy_teardown_deletes_then_finalizer` on a
deleting add-on with one labelled envelope still present. -/
theorem deploy_teardown_witness :
    (addonDeploySync "testaddon" "testcluster" [] wViewDel).err ≠ none ∧
    (addonDeploySync "testaddon" "testcluster" [] wViewDel).writes =
      ((listWorksByLabel wViewDel.works "testaddon").filter
          (fun w => w.deletionTimestamp = none)).map
        (fun w => DeployWrite.deleteWork "testcluster" w.name) :=
  (deploy_teardown_deletes_then_finalizer "testaddon" "testcluster" [] wViewDel
    wDeletingAddon rfl rfl (by decide)).1 (by decide)

/-- C3: in the steady state with a non-empty supplier output, the deploy
reconcile creates the `addon-<add-on>-deploy` envelope when absent,
updates it carrying the existing resource version when the payload's
raw bytes differ element-wise, performs no write otherwise, and a
second reconcile after the writes land performs no writes. -/
theorem deploy_create_or_update_envelope
    (addonName clusterName : String) (objects : List (List Nat))
    (v : DeployView) (a : Addon) (work : ManifestWork)
    (hc : v.clusterExists = true) (ha : v.addon = some a)
    (hdt : a.deletionTimestamp = none) (hfin : addonFinalizer ∈ a.finalizers)
    (hw : buildManifestWorkFromObject addonName clusterName objects = some work) :
    work.name = "addon-" ++ addonName ++ "-deploy" ∧
    work.manifests = objects ∧
    (getWork v.works work.name = none →
      addonDeploySync addonName clusterName objects v =
        ⟨[DeployWrite.createWork work], none⟩) ∧
    (∀ ex, getWork v.works work.name = some ex →
      (ManifestsEqual ex.manifests work.manifests = true →
        addonDeploySync addonName clusterName objects v = ⟨[], none⟩) ∧
      (ManifestsEqual ex.manifests work.manifests = false →
        addonDeploySync addonName clusterName objects v =
          ⟨[DeployWrite.updateWork { work with resourceVersion := ex.resourceVersion }],
            none⟩)) ∧
    addonDeploySync addonName clusterName objects
        (applyDeployWrites v (addonDeploySync addonName clusterName objects v).writes) =
      ⟨[], none⟩ := by
  have hfields : work.name = "addon-" ++ addonName ++ "-deploy" ∧ work.manifests = objects := by
    unfold buildManifestWorkFromObject at hw
    by_cases hobj : objects.length = 0
    · rw [if_pos hobj] at hw
      exact absurd hw (by simp)
    · rw [if_neg hobj] at hw
      have := Option.some_inj.mp hw
      rw [← this]
      exact ⟨rfl, rfl⟩
  have hsteady : ∀ v' : DeployView, v'.clusterExists = true → v'.addon = some a →
      addonDeploySync addonName clusterName objects v' =
        stepEnvelope work (getWork v'.works work.name) := by
    intro v' hc' ha'
    have h := addonDeploySync_steady addonName clusterName objects v' a hc' ha' hdt hfin
    rw [hw] at h
    exact h
  have hred := hsteady v hc ha
  refine ⟨hfields.1, hfields.2, ?_, ?_, ?_⟩
  · intro hnone
    rw [hred, hnone]
    rfl
  · intro ex hex
    rw [hred, hex]
    constructor
    · intro hm
      simp [stepEnvelope, hm]
    · intro hm
      simp [stepEnvelope, hm]
  · by_cases hnone : getWork v.works work.name = none
    · -- first pass creates; second pass finds an element-wise equal envelope
      rw [hred, hnone]
      show addonDeploySync addonName clusterName objects
        (applyDeployWrites v [DeployWrite.createWork work]) = ⟨[], none⟩
      have hv' : applyDeployWrites v [DeployWrite.createWork work] =
          { v with works := v.works ++ [work] } := rfl
      rw [hv', hsteady { v with works := v.works ++ [work] } hc (by simpa using ha)]
      have hfind : getWork (v.works ++ [work]) work.name = some work := by
        unfold getWork at hnone ⊢
        rw [List.find?_append]
        simp [hnone]
      rw [hfind]
      simp [stepEnvelope, ManifestsEqual_refl]
    · rcases Option.ne_none_iff_exists.mp hnone with ⟨ex, hex⟩
      have hgw : getWork v.works work.name = some ex := hex.symm
      by_cases hm : ManifestsEqual ex.manifests work.manifests = true
      · -- payloads equal: no write on the first pass either
        rw [hred, hgw]
        have hstep : stepEnvelope work (some ex) = ⟨[], none⟩ := by
          simp [stepEnvelope, hm]
        rw [hstep]
        show addonDeploySync addonName clusterName objects (applyDeployWrites v []) = ⟨[], none⟩
        have hv' : applyDeployWrites v [] = v := rfl
        rw [hv', hred, hgw, hstep]
      · -- payloads differ: first pass updates, second pass sees equal payloads
        rw [hred, hgw]
        have hstep : stepEnvelope work (some ex) =
            ⟨[DeployWrite.updateWork { work with resourceVersion := ex.resourceVersion }],
              none⟩ := by
          simp [stepEnvelope, hm]
        rw [hstep]
        show addonDeploySync addonName clusterName objects
          (applyDeployWrites v
            [DeployWrite.updateWork { work with resourceVersion := ex.resourceVersion }]) =
          ⟨[], none⟩
        have hv' : applyDeployWrites v
            [DeployWrite.updateWork { work with resourceVersion := ex.resourceVersion }] =
            { v with works := v.works.map (fun w0 =>
                if w0.name = ({ work with resourceVersion := ex.resourceVersion } :
                    ManifestWork).name then
                  { work with resourceVersion := ex.resourceVersion }
                else w0) } := rfl
        rw [hv', hsteady
          { v with works := v.works.map (fun w0 =>
              if w0.name = ({ work with resourceVersion := ex.resourceVersion } :
                  ManifestWork).name then
                { work with resourceVersion := ex.resourceVersion }
              else w0) }
          hc (by simpa using ha)]
        have hfind := getWork_map_replace v.works
          { work with resourceVersion := ex.resourceVersion } ex hgw
        rw [show work.name =
            ({ work with resourceVersion := ex.resourceVersion } : ManifestWork).name from rfl,
          hfind]
        simp [stepEnvelope, ManifestsEqual_refl]

/-- The envelope built for `testaddon` from one raw object `[1, 2]`. -/
def wBuiltWork : ManifestWork :=
  { name := "addon-testaddon-deploy"
    namespace_ := "testcluster"
    labels := [(AddonWorkLabel, "testaddon")]
    resourceVersion := ""
    manifests := [[1, 2]]
    deletionTimestamp := none }

/-- Deploy view in the steady state with no existing envelope. -/
def wViewSteady : DeployView :=
  { clusterExists := true, addon := some witnessAddon, works := [] }

/-- Witness instantiating `deploy_create_or_update_envelope`: the first
pass creates the envelope, the second pass performs no writes. -/
theorem deploy_create_or_update_witness :
    addonDeploySync "testaddon" "testcluster" [[1, 2]] wViewSteady =
      ⟨[DeployWrite.createWork wBuiltWork], none⟩ ∧
    addonDeploySync "testaddon" "testcluster" [[1, 2]]
        (applyDeployWrites wViewSteady
          (addonDeploySync "testaddon" "testcluster" [[1, 2]] wViewSteady).writes) =
      ⟨[], none⟩ :=
  ⟨(deploy_create_or_update_envelope "testaddon" "testcluster" [[1, 2]] wViewSteady
      witnessAddon wBuiltWork rfl rfl rfl (by decide) rfl).2.2.1 rfl,
    (deploy_create_or_update_envelope "testaddon" "testcluster" [[1, 2]] wViewSteady
      witnessAddon wBuiltWork rfl rfl rfl (by decide) rfl).2.2.2.2⟩

/-! ## Status helper (`pkg/helpers/helpers.go`) and condition plumbing -/

/-- `meta.FindStatusCondition`: the first condition of the given type. -/
def findStatusCondition (conds : List Condition) (t : String) : Option Condition :=
  conds.find? (fun c => c.ctype = t)

/-- In-place mutation of an existing condition performed by
`meta.SetStatusCondition`: status and last-transition-time change only
when the status differs; reason and message are always overwritten. -/
def setExistingCondition (now : Int) (c nc : Condition) : Condition :=
  if c.status ≠ nc.status then
    { c with
        status := nc.status
        lastTransitionTime :=
          if nc.lastTransitionTime ≠ none then nc.lastTransitionTime else some now
        reason := nc.reason
        message := nc.message }
  else { c with reason := nc.reason, message := nc.message }

/-- `meta.SetStatusCondition`: update the first condition of the new
condition's type, or append the new condition (defaulting its
last-transition-time to `now`). -/
def setStatusCondition (now : Int) : List Condition → Condition → List Condition
  | [], nc =>
    [if nc.lastTransitionTime = none then { nc with lastTransitionTime := some now } else nc]
  | c :: rest, nc =>
    if c.ctype = nc.ctype then setExistingCondition now c nc :: rest
    else c :: setStatusCondition now rest nc

/-- Run the `UpdateAddonStatusFunc`s in order on a status; `none`
models an update function returning a non-nil error. -/
def applyUpdateFuncs : List (AddonStatus → Option AddonStatus) → AddonStatus →
    Option AddonStatus
  | [], s => some s
  | f :: fs, s =>
    match f s with
    | none => none
    | some s' => applyUpdateFuncs fs s'

/-- Outcome of `helpers.UpdateAddonStatus`: the returned status, the
returned `updated` flag, and the `UpdateStatus` write (if any). -/
structure StatusUpdateResult where
  returned : AddonStatus
  updated : Bool
  write : Option AddonStatus
deriving DecidableEq, Repr

/-- `helpers.UpdateAddonStatus`: fetch the add-on's status, apply the
update functions to a deep copy (copying is implicit in a pure
embedding: `oldStatus` is never mutated), skip the write when the new
status is semantically equal to the old one, otherwise write the new
status.  The retry-on-conflict loop re-runs this body on optimistic
concurrency collisions; with no concurrent writer each attempt is this
single pass. -/
def UpdateAddonStatus (oldStatus : AddonStatus)
    (updateFuncs : List (AddonStatus → Option AddonStatus)) : Option StatusUpdateResult :=
  match applyUpdateFuncs updateFuncs oldStatus with
  | none => none
  | some newStatus =>
    if oldStatus = newStatus then some ⟨newStatus, false, none⟩
    else some ⟨newStatus, true, some newStatus⟩

/-- `helpers.UpdateAddonConditionFn`. -/
def UpdateAddonConditionFn (now : Int) (cond : Condition) :
    AddonStatus → Option AddonStatus :=
  fun oldStatus =>
    some { oldStatus with conditions := setStatusCondition now oldStatus.conditions cond }

lemma findStatusCondition_setStatusCondition (now : Int) (conds : List Condition)
    (nc : Condition) :
    ∃ c, findStatusCondition (setStatusCondition now conds nc) nc.ctype = some c ∧
      c.status = nc.status ∧ c.reason = nc.reason ∧ c.message = nc.message := by
  induction conds with
  | nil =>
    by_cases hl : nc.lastTransitionTime = none
    · exact ⟨{ nc with lastTransitionTime := some now }, by
        simp [setStatusCondition, findStatusCondition, hl], rfl, rfl, rfl⟩
    · exact ⟨nc, by simp [setStatusCondition, findStatusCondition, hl], rfl, rfl, rfl⟩
  | cons c rest ih =>
    by_cases hc : c.ctype = nc.ctype
    · refine ⟨setExistingCondition now c nc, ?_, ?_, ?_, ?_⟩
      · have ht : (setExistingCondition now c nc).ctype = nc.ctype := by
          unfold setExistingCondition
          by_cases hs : c.status ≠ nc.status
          · simp [hs, hc]
          · simp [hs, hc]
        simp [setStatusCondition, hc, findStatusCondition, ht]
      · unfold setExistingCondition
        by_cases hs : c.status ≠ nc.status
        · simp [hs]
        · push_neg at hs
          simp [hs]
      · unfold setExistingCondition
        by_cases hs : c.status ≠ nc.status <;> simp [hs]
      · unfold setExistingCondition
        by_cases hs : c.status ≠ nc.status <;> simp [hs]
    · rcases ih with ⟨c', hfind, hs, hr, hm⟩
      exact ⟨c', by simp [setStatusCondition, hc, findStatusCondition] at hfind ⊢; exact hfind,
        hs, hr, hm⟩

/-- C10: `UpdateAddonStatus` applies the update functions to a copy of
the fetched status; when the result is semantically equal to the old
status it issues no write and returns the merged status with
`updated = false`, otherwise it writes and returns the new status with
`updated = true`. -/
theorem updateAddonStatus_write_iff_changed (oldStatus newStatus : AddonStatus)
    (fns : List (AddonStatus → Option AddonStatus))
    (h : applyUpdateFuncs fns oldStatus = some newStatus) :
    (oldStatus = newStatus →
      UpdateAddonStatus oldStatus fns = some ⟨newStatus, false, none⟩) ∧
    (oldStatus ≠ newStatus →
      UpdateAddonStatus oldStatus fns = some ⟨newStatus, true, some newStatus⟩) := by
  constructor
  · intro he
    unfold UpdateAddonStatus
    rw [h]
    simp [he]
  · intro hne
    unfold UpdateAddonStatus
    rw [h]
    simp [hne]

/-- Witness instantiating `updateAddonStatus_write_iff_changed` with a
single condition-setting update function on an empty status. -/
theorem updateAddonStatus_write_iff_changed_witness :
    UpdateAddonStatus ⟨[]⟩
        [UpdateAddonConditionFn 5 ⟨"Degraded", "True", "AddonLeaseNotFound",
          "Addon agent is not found.", none⟩] =
      some ⟨⟨[⟨"Degraded", "True", "AddonLeaseNotFound",
          "Addon agent is not found.", some 5⟩]⟩, true,
        some ⟨[⟨"Degraded", "True", "AddonLeaseNotFound",
          "Addon agent is not found.", some 5⟩]⟩⟩ :=
  (updateAddonStatus_write_iff_changed ⟨[]⟩
      ⟨[⟨"Degraded", "True", "AddonLeaseNotFound", "Addon agent is not found.", some 5⟩]⟩
      [UpdateAddonConditionFn 5 ⟨"Degraded", "True", "AddonLeaseNotFound",
        "Addon agent is not found.", none⟩]
      (by rfl)).2 (by decide)

/-! ## Spoke add-on lease observer
(`pkg/spoke/controllers/lease/addon_lease_controller.go`) -/

/-- A coordination lease; `renewTime` in seconds. -/
structure Lease where
  name : String
  namespace_ : String
  labels : List (String × String)
  holderIdentity : Option String
  renewTime : Int
deriving DecidableEq, Repr

/-- `addonLeaseDurationTimes`. -/
def addonLeaseDurationTimes : Int := 5

/-- `AddonLeaseDurationSeconds`. -/
def AddonLeaseDurationSeconds : Int := 60

/-- `addonLeaseController.checkAddonLeases`: degraded-false on the
first lease whose `renewTime + gracePeriod` is after `now`, otherwise
degraded-true with the update-stopped reason. -/
def checkAddonLeases (now : Int) : List Lease → Condition
  | [] =>
    ⟨"Degraded", "True", "AddonLeaseUpdateStopped",
      "Addon agent stopped updating its lease.", none⟩
  | lease :: rest =>
    if now < lease.renewTime + addonLeaseDurationTimes * AddonLeaseDurationSeconds then
      ⟨"Degraded", "False", "ManagedClusterLeaseUpdated",
        "Addon agent is updating its lease.", none⟩
    else checkAddonLeases now rest

/-- The condition `addonLeaseController.sync` feeds to the status
updater for one add-on, as a function of the label-selected leases.
(A lister error takes the same branch as the empty list.) -/
def addonLeaseConditionFor (now : Int) (leases : List Lease) : Condition :=
  if leases.length = 0 then
    ⟨"Degraded", "True", "AddonLeaseNotFound", "Addon agent is not found.", none⟩
  else checkAddonLeases now leases

lemma checkAddonLeases_of_exists (now : Int) (leases : List Lease)
    (h : ∃ l ∈ leases,
      now < l.renewTime + addonLeaseDurationTimes * AddonLeaseDurationSeconds) :
    checkAddonLeases now leases =
      ⟨"Degraded", "False", "ManagedClusterLeaseUpdated",
        "Addon agent is updating its lease.", none⟩ := by
  induction leases with
  | nil => simp at h
  | cons l0 rest ih =>
    by_cases h0 : now < l0.renewTime + addonLeaseDurationTimes * AddonLeaseDurationSeconds
    · simp [checkAddonLeases, h0]
    · simp only [checkAddonLeases, if_neg h0]
      rcases h with ⟨l, hl, hlt⟩
      rcases List.mem_cons.mp hl with he | hmem
      · rw [he] at hlt
        exact absurd hlt h0
      · exact ih ⟨l, hmem, hlt⟩

lemma checkAddonLeases_of_forall (now : Int) (leases : List Lease)
    (h : ∀ l ∈ leases,
      ¬now < l.renewTime + addonLeaseDurationTimes * AddonLeaseDurationSeconds) :
    checkAddonLeases now leases =
      ⟨"Degraded", "True", "AddonLeaseUpdateStopped",
        "Addon agent stopped updating its lease.", none⟩ := by
  induction leases with
  | nil => rfl
  | cons l0 rest ih =>
    have h0 := h l0 (by simp)
    simp only [checkAddonLeases, if_neg h0]
    exact ih (fun l hl => h l (List.mem_cons_of_mem l0 hl))

/-- C5: the spoke AddonLeaseObserver sets Degraded=True with reason
AddonLeaseNotFound when no labelled lease exists, Degraded=False with
reason ManagedClusterLeaseUpdated when some lease's
`renewTime + 5*60 s` is still in the future, and Degraded=True with
reason AddonLeaseUpdateStopped when leases exist but all are older than
the grace period. -/
theorem addonLeaseObserver_condition (now : Int) (leases : List Lease) :
    (leases = [] →
      addonLeaseConditionFor now leases =
        ⟨"Degraded", "True", "AddonLeaseNotFound", "Addon agent is not found.", none⟩) ∧
    ((∃ l ∈ leases,
        now < l.renewTime + addonLeaseDurationTimes * AddonLeaseDurationSeconds) →
      addonLeaseConditionFor now leases =
        ⟨"Degraded", "False", "ManagedClusterLeaseUpdated",
          "Addon agent is updating its lease.", none⟩) ∧
    (leases ≠ [] →
      (∀ l ∈ leases,
        ¬now < l.renewTime + addonLeaseDurationTimes * AddonLeaseDurationSeconds) →
      addonLeaseConditionFor now leases =
        ⟨"Degraded", "True", "AddonLeaseUpdateStopped",
          "Addon agent stopped updating its lease.", none⟩) := by
  refine ⟨?_, ?_, ?_⟩
  · intro h
    simp [addonLeaseConditionFor, h]
  · intro h
    have hne : ¬leases.length = 0 := by
      rcases h with ⟨l, hl, _⟩
      simp [List.length_eq_zero]
      intro he
      rw [he] at hl
      simp at hl
    unfold addonLeaseConditionFor
    rw [if_neg hne]
    exact checkAddonLeases_of_exists now leases h
  · intro hne hall
    have hlen : ¬leases.length = 0 := by
      simpa [List.length_eq_zero] using hne
    unfold addonLeaseConditionFor
    rw [if_neg hlen]
    exact checkAddonLeases_of_forall now leases hall

/-- Witness instantiating `addonLeaseObserver_condition`: one lease
renewed at time 0 observed at time 100 is within the 300-second grace
period. -/
theorem addonLeaseObserver_condition_witness :
    addonLeaseConditionFor 100
        [{ name := "open-cluster-management-addon-testaddon", namespace_ := "ns1",
           labels := [("open-cluster-management-addon", "testaddon")],
           holderIdentity := none, renewTime := 0 }] =
      ⟨"Degraded", "False", "ManagedClusterLeaseUpdated",
        "Addon agent is updating its lease.", none⟩ :=
  (addonLeaseObserver_condition 100
      [{ name := "open-cluster-management-addon-testaddon", namespace_ := "ns1",
         labels := [("open-cluster-management-addon", "testaddon")],
         holderIdentity := none, renewTime := 0 }]).2.1
    ⟨{ name := "open-cluster-management-addon-testaddon", namespace_ := "ns1",
        labels := [("open-cluster-management-addon", "testaddon")],
        holderIdentity := none, renewTime := 0 }, by simp, by decide⟩

/-! ## Hub liveness controller (`lease_controller.go`, hub side) -/

/-- A `ManagedCluster`: its name and `Spec.LeaseDurationSeconds`
(0 when unset). -/
structure Cluster where
  name : String
  leaseDurationSeconds : Int
deriving DecidableEq, Repr

/-- `leaseDurationTimes` (hub lease controller). -/
def leaseDurationTimes : Int := 5

/-- A write issued by the hub lease controller. -/
inductive HubLeaseWrite where
  | createLease (l : Lease)
  | updateAddonStatus (clusterName addonName : String) (s : AddonStatus)
deriving DecidableEq, Repr

/-- The condition written on every add-on of a cluster whose hub lease
went stale. -/
def addonManagerStoppedCondition : Condition :=
  ⟨"Available", "Unknown", "AddonManagerUpdateStopped",
    "Addon manager stopped updating its lease.", none⟩

/-- The per-cluster body of the hub `leaseController.sync` loop: create
the `addon-lease` when absent (skipping the grace check via `continue`),
do nothing while `now < renewTime + gracePeriod`, else push the
Available-Unknown condition through `helpers.UpdateAddonStatus` for
every add-on of the cluster (a write lands only when the status
changes). -/
def hubLeaseClusterSync (now : Int) (cluster : Cluster) (leaseOpt : Option Lease)
    (addons : List Addon) : List HubLeaseWrite :=
  match leaseOpt with
  | none =>
    [HubLeaseWrite.createLease
      { name := "addon-lease"
        namespace_ := cluster.name
        labels := [("addon.open-cluster-management.io/cluster-name", cluster.name)]
        holderIdentity := some "addon-lease"
        renewTime := now }]
  | some observedLease =>
    let leaseDurationSeconds :=
      if cluster.leaseDurationSeconds = 0 then 60 else cluster.leaseDurationSeconds
    let gracePeriod := leaseDurationTimes * leaseDurationSeconds
    if now < observedLease.renewTime + gracePeriod then []
    else
      addons.filterMap (fun addon =>
        match UpdateAddonStatus addon.status
            [UpdateAddonConditionFn now addonManagerStoppedCondition] with
        | none => none
        | some r => r.write.map (fun s =>
            HubLeaseWrite.updateAddonStatus cluster.name addon.name s))

/-- The status an add-on carries after the stale-lease pass. -/
def statusAfterHubLiveness (now : Int) (s : AddonStatus) : AddonStatus :=
  { s with conditions := setStatusCondition now s.conditions addonManagerStoppedCondition }

lemma hubLeaseClusterSync_some (now : Int) (cluster : Cluster) (lease : Lease)
    (addons : List Addon) :
    hubLeaseClusterSync now cluster (some lease) addons =
      (if now < lease.renewTime +
          leaseDurationTimes *
            (if cluster.leaseDurationSeconds = 0 then 60 else cluster.leaseDurationSeconds) then
        ([] : List HubLeaseWrite)
      else
        addons.filterMap (fun addon =>
          match UpdateAddonStatus addon.status
              [UpdateAddonConditionFn now addonManagerStoppedCondition] with
          | none => none
          | some r => r.write.map (fun s =>
              HubLeaseWrite.updateAddonStatus cluster.name addon.name s))) := rfl

lemma updateAddonStatus_single_returned (now : Int) (s : AddonStatus) (cond : Condition) :
    (UpdateAddonStatus s [UpdateAddonConditionFn now cond]).map (fun r => r.returned) =
      some { s with conditions := setStatusCondition now s.conditions cond } := by
  simp only [UpdateAddonStatus, applyUpdateFuncs, UpdateAddonConditionFn]
  split
  · rfl
  · rfl

/-- C6: the hub liveness reconciler creates the `addon-lease` with
`renewTime = now` and a cluster-name label when absent (and touches no
add-on status on that pass); with `gracePeriod = 5 * leaseDurationSeconds`
(defaulting the duration to 60 when unset) it performs no write while
`now < renewTime + gracePeriod`, and on a stale lease every add-on of
the cluster ends up with condition Available=Unknown, reason
AddonManagerUpdateStopped. -/
theorem hubLiveness_grace_and_staleness (now : Int) (cluster : Cluster)
    (leaseOpt : Option Lease) (addons : List Addon) :
    (leaseOpt = none →
      hubLeaseClusterSync now cluster leaseOpt addons =
        [HubLeaseWrite.createLease
          { name := "addon-lease"
            namespace_ := cluster.name
            labels := [("addon.open-cluster-management.io/cluster-name", cluster.name)]
            holderIdentity := some "addon-lease"
            renewTime := now }]) ∧
    (∀ lease, leaseOpt = some lease →
      (now < lease.renewTime +
          leaseDurationTimes *
            (if cluster.leaseDurationSeconds = 0 then 60 else cluster.leaseDurationSeconds) →
        hubLeaseClusterSync now cluster leaseOpt addons = []) ∧
      (¬now < lease.renewTime +
          leaseDurationTimes *
            (if cluster.leaseDurationSeconds = 0 then 60 else cluster.leaseDurationSeconds) →
        ∀ addon ∈ addons,
          (UpdateAddonStatus addon.status
              [UpdateAddonConditionFn now addonManagerStoppedCondition]).map
            (fun r => r.returned) = some (statusAfterHubLiveness now addon.status) ∧
          (findStatusCondition (statusAfterHubLiveness now addon.status).conditions
              "Available").map (fun c => c.status) = some "Unknown" ∧
          (findStatusCondition (statusAfterHubLiveness now addon.status).conditions
              "Available").map (fun c => c.reason) = some "AddonManagerUpdateStopped")) := by
  constructor
  · intro h
    rw [h]
    rfl
  · intro lease he
    constructor
    · intro hfresh
      rw [he, hubLeaseClusterSync_some, if_pos hfresh]
    · intro _ addon _
      refine ⟨updateAddonStatus_single_returned now addon.status addonManagerStoppedCondition,
        ?_, ?_⟩
      · rcases findStatusCondition_setStatusCondition now addon.status.conditions
          addonManagerStoppedCondition with ⟨c, hfind, hs, hr, _⟩
        have ht : addonManagerStoppedCondition.ctype = "Available" := rfl
        rw [ht] at hfind
        unfold statusAfterHubLiveness
        simp [hfind, hs]
        rfl
      · rcases findStatusCondition_setStatusCondition now addon.status.conditions
          addonManagerStoppedCondition with ⟨c, hfind, hs, hr, _⟩
        have ht : addonManagerStoppedCondition.ctype = "Available" := rfl
        rw [ht] at hfind
        unfold statusAfterHubLiveness
        simp [hfind, hr]
        rfl

/-- The stale hub lease used in witnesses. -/
def wStaleLease : Lease :=
  { name := "addon-lease", namespace_ := "testcluster", labels := [],
    holderIdentity := none, renewTime := 0 }

/-- Witness instantiating `hubLiveness_grace_and_staleness` on a stale
lease (renewed at 0, observed at 301, grace 300) and one add-on. -/
theorem hubLiveness_grace_and_staleness_witness :
    (UpdateAddonStatus witnessAddon.status
        [UpdateAddonConditionFn 301 addonManagerStoppedCondition]).map
      (fun r => r.returned) = some (statusAfterHubLiveness 301 witnessAddon.status) ∧
    (findStatusCondition (statusAfterHubLiveness 301 witnessAddon.status).conditions
        "Available").map (fun c => c.status) = some "Unknown" ∧
    (findStatusCondition (statusAfterHubLiveness 301 witnessAddon.status).conditions
        "Available").map (fun c => c.reason) = some "AddonManagerUpdateStopped" :=
  ((hubLiveness_grace_and_staleness 301 { name := "testcluster", leaseDurationSeconds := 0 }
      (some wStaleLease) [witnessAddon]).2 wStaleLease rfl).2 (by decide) witnessAddon (by simp)

/-! ## Config annotator (`pkg/addonmanager/agentdeploy/config_controller.go`) -/

/-- One key of library-go `resourcemerge.MergeMap`: set the required
value and flag a modification unless the existing map already carries
it (a Go map read of a missing key is `""`).  The delete-on-`"-"`-suffix
branch of `MergeMap` is never taken by the keys this repository merges
and is omitted. -/
def mergeStep (acc : List (String × String) × Bool) (kv : String × String) :
    List (String × String) × Bool :=
  if getA acc.1 kv.1 = kv.2 then acc
  else (setA acc.1 kv.1 kv.2, true)

/-- `resourcemerge.MergeMap` over the required keys in build order (the
Go map iteration order is unspecified; the keys built by the config
controller are pairwise distinct, so the order is immaterial). -/
def mergeMap (existing required : List (String × String)) :
    List (String × String) × Bool :=
  required.foldl mergeStep (existing, false)

/-- The `annotationData` map built by `addonConfigController.sync`,
including the `bootstrapSecret` key exactly when the bootstrap
kubeconfig bytes are non-empty. -/
def annotationData (enableRegistration : Bool)
    (signer installNamespace addonName : String) (kubeConfigData : List Nat) :
    List (String × String) :=
  (if enableRegistration then
    [("signer", signer), ("installNamespace", installNamespace),
      ("enable_registration", "true")]
  else [("enable_registration", "false")]) ++
  (if kubeConfigData.length > 0 then
    [("bootstrapSecret", addonName ++ "-bootstrap-kubeconfig")]
  else [])

/-- A write issued by the config annotator. -/
inductive ConfigWrite where
  | updateAddon (a : Addon)
deriving DecidableEq, Repr

/-- `addonConfigController.sync`: if add-on or cluster is absent,
return; propagate a bootstrap-kubeconfig supplier error
(`kubeConfigData = none`); otherwise merge the annotation data into a
copy of the add-on and update only if the merge modified anything. -/
def addonConfigSync (enableRegistration : Bool)
    (signer installNamespace addonName : String)
    (addonOpt : Option Addon) (clusterExists : Bool)
    (kubeConfigData : Option (List Nat)) : List ConfigWrite × Option String :=
  match addonOpt with
  | none => ([], none)
  | some addon =>
    if ¬clusterExists then ([], none)
    else
      match kubeConfigData with
      | none => ([], some "AgentBootstrapKubeConfig error")
      | some kcd =>
        let md := mergeMap addon.annotations
          (annotationData enableRegistration signer installNamespace addonName kcd)
        if md.2 then ([ConfigWrite.updateAddon { addon with annotations := md.1 }], none)
        else ([], none)

lemma lookupA_setA_self (m : List (String × String)) (k v : String) :
    lookupA (setA m k v) k = some v := by
  induction m with
  | nil => simp [setA, lookupA]
  | cons kv rest ih =>
    rcases kv with ⟨k0, v0⟩
    by_cases hk : k0 = k
    · simp only [setA]
      rw [if_pos hk]
      simp [lookupA]
    · simp only [setA]
      rw [if_neg hk]
      simp only [lookupA]
      rw [if_neg hk]
      exact ih

lemma lookupA_setA_ne (m : List (String × String)) (k v k' : String) (hne : k' ≠ k) :
    lookupA (setA m k v) k' = lookupA m k' := by
  have hkk' : ¬(k = k') := fun h => hne h.symm
  induction m with
  | nil => simp [setA, lookupA, hkk']
  | cons kv rest ih =>
    rcases kv with ⟨k0, v0⟩
    by_cases hk : k0 = k
    · simp only [setA]
      rw [if_pos hk]
      simp only [lookupA]
      rw [if_neg hkk', if_neg (by rw [hk]; exact hkk')]
    · simp only [setA]
      rw [if_neg hk]
      simp only [lookupA]
      by_cases hk' : k0 = k'
      · rw [if_pos hk', if_pos hk']
      · rw [if_neg hk', if_neg hk']
        exact ih

lemma getA_setA_self (m : List (String × String)) (k v : String) :
    getA (setA m k v) k = v := by
  simp [getA, lookupA_setA_self]

lemma getA_setA_ne (m : List (String × String)) (k v k' : String) (hne : k' ≠ k) :
    getA (setA m k v) k' = getA m k' := by
  simp [getA, lookupA_setA_ne m k v k' hne]

lemma mergeFold_snd (d : List (String × String)) :
    ∀ (m : List (String × String)) (b : Bool),
      (d.foldl mergeStep (m, b)).2 = (b || d.any (fun kv => getA m kv.1 ≠ kv.2)) := by
  induction d with
  | nil =>
    intro m b
    simp
  | cons kv rest ih =>
    intro m b
    simp only [List.foldl_cons, List.any_cons]
    by_cases h : getA m kv.1 = kv.2
    · rw [show mergeStep (m, b) kv = (m, b) from by simp [mergeStep, h]]
      rw [ih m b]
      simp [h]
    · rw [show mergeStep (m, b) kv = (setA m kv.1 kv.2, true) from by simp [mergeStep, h]]
      rw [ih _ true]
      simp [h]

lemma mergeFold_fst_not_mem (d : List (String × String)) :
    ∀ (m : List (String × String)) (b : Bool) (k : String),
      k ∉ d.map Prod.fst →
      getA (d.foldl mergeStep (m, b)).1 k = getA m k := by
  induction d with
  | nil =>
    intro m b k _
    rfl
  | cons kv rest ih =>
    intro m b k hk
    simp only [List.map_cons, List.mem_cons] at hk
    push_neg at hk
    obtain ⟨hk0, hkrest⟩ := hk
    simp only [List.foldl_cons]
    by_cases h : getA m kv.1 = kv.2
    · rw [show mergeStep (m, b) kv = (m, b) from by simp [mergeStep, h]]
      exact ih m b k hkrest
    · rw [show mergeStep (m, b) kv = (setA m kv.1 kv.2, true) from by simp [mergeStep, h]]
      rw [ih _ true k hkrest]
      exact getA_setA_ne m kv.1 kv.2 k hk0

lemma mergeFold_fst_mem (d : List (String × String)) :
    ∀ (m : List (String × String)) (b : Bool) (k v : String),
      (k, v) ∈ d → (d.map Prod.fst).Nodup →
      getA (d.foldl mergeStep (m, b)).1 k = v := by
  induction d with
  | nil =>
    intro m b k v h _
    simp at h
  | cons kv rest ih =>
    rcases kv with ⟨k0, v0⟩
    intro m b k v hmem hnd
    simp only [List.map_cons, List.nodup_cons] at hnd
    rcases List.mem_cons.mp hmem with he | hmemrest
    · rw [Prod.mk.injEq] at he
      obtain ⟨hk, hv⟩ := he
      subst hk
      subst hv
      simp only [List.foldl_cons]
      by_cases h : getA m k = v
      · rw [show mergeStep (m, b) (k, v) = (m, b) from by simp [mergeStep, h]]
        rw [mergeFold_fst_not_mem rest m b k hnd.1]
        exact h
      · rw [show mergeStep (m, b) (k, v) = (setA m k v, true) from by simp [mergeStep, h]]
        rw [mergeFold_fst_not_mem rest _ true k hnd.1]
        exact getA_setA_self m k v
    · simp only [List.foldl_cons]
      by_cases h : getA m k0 = v0
      · rw [show mergeStep (m, b) (k0, v0) = (m, b) from by simp [mergeStep, h]]
        exact ih m b k v hmemrest hnd.2
      · rw [show mergeStep (m, b) (k0, v0) = (setA m k0 v0, true) from by simp [mergeStep, h]]
        exact ih _ true k v hmemrest hnd.2

lemma annotationData_keys_nodup (er : Bool) (signer installNamespace addonName : String)
    (kcd : List Nat) :
    ((annotationData er signer installNamespace addonName kcd).map Prod.fst).Nodup := by
  unfold annotationData
  by_cases h : kcd.length > 0 <;> cases er <;> simp [h]

/-- The annotation map of the add-on after the registration-enabled
config-annotator merge. -/
def mergedConfigAnnotations (signer installNamespace addonName : String)
    (addon : Addon) (kcd : List Nat) : List (String × String) :=
  (mergeMap addon.annotations
    (annotationData true signer installNamespace addonName kcd)).1

lemma addonConfigSync_some (er : Bool) (signer ns an : String) (addon : Addon)
    (kcd : List Nat) :
    addonConfigSync er signer ns an (some addon) true (some kcd) =
      (if (mergeMap addon.annotations (annotationData er signer ns an kcd)).2 then
        ([ConfigWrite.updateAddon
          { addon with
              annotations := (mergeMap addon.annotations
                (annotationData er signer ns an kcd)).1 }], none)
      else ([], none)) := by
  unfold addonConfigSync
  simp

/-- C8: in the registration-enabled case with add-on and cluster
present, the config annotator merges exactly `signer`,
`installNamespace`, `enable_registration = "true"` and — iff the
bootstrap-kubeconfig supplier returned non-empty bytes —
`bootstrapSecret = <add-on>-bootstrap-kubeconfig` onto the add-on's
annotations, leaving every other annotation unchanged, and issues an
update write iff the merge changed at least one annotation value. -/
theorem configAnnotator_exact_merge (signer installNamespace addonName : String)
    (addon : Addon) (kcd : List Nat) :
    getA (mergedConfigAnnotations signer installNamespace addonName addon kcd)
      "signer" = signer ∧
    getA (mergedConfigAnnotations signer installNamespace addonName addon kcd)
      "installNamespace" = installNamespace ∧
    getA (mergedConfigAnnotations signer installNamespace addonName addon kcd)
      "enable_registration" = "true" ∧
    (kcd ≠ [] →
      getA (mergedConfigAnnotations signer installNamespace addonName addon kcd)
        "bootstrapSecret" = addonName ++ "-bootstrap-kubeconfig") ∧
    (kcd = [] →
      getA (mergedConfigAnnotations signer installNamespace addonName addon kcd)
        "bootstrapSecret" = getA addon.annotations "bootstrapSecret") ∧
    (∀ k, k ∉ (annotationData true signer installNamespace addonName kcd).map Prod.fst →
      getA (mergedConfigAnnotations signer installNamespace addonName addon kcd) k =
        getA addon.annotations k) ∧
    ((addonConfigSync true signer installNamespace addonName
        (some addon) true (some kcd)).1 ≠ [] ↔
      ∃ kv ∈ annotationData true signer installNamespace addonName kcd,
        getA addon.annotations kv.1 ≠ kv.2) ∧
    ((addonConfigSync true signer installNamespace addonName
        (some addon) true (some kcd)).1 ≠ [] →
      (addonConfigSync true signer installNamespace addonName
          (some addon) true (some kcd)).1 =
        [ConfigWrite.updateAddon
          { addon with
              annotations :=
                mergedConfigAnnotations signer installNamespace addonName addon kcd }]) := by
  have hnd := annotationData_keys_nodup true signer installNamespace addonName kcd
  have hsnd : (mergeMap addon.annotations
      (annotationData true signer installNamespace addonName kcd)).2 =
      (annotationData true signer installNamespace addonName kcd).any
        (fun kv => getA addon.annotations kv.1 ≠ kv.2) := by
    unfold mergeMap
    rw [mergeFold_snd]
    simp
  refine ⟨?_, ?_, ?_, ?_, ?_, ?_, ?_, ?_⟩
  · exact mergeFold_fst_mem _ addon.annotations false "signer" signer
      (by simp [annotationData]) hnd
  · exact mergeFold_fst_mem _ addon.annotations false "installNamespace" installNamespace
      (by simp [annotationData]) hnd
  · exact mergeFold_fst_mem _ addon.annotations false "enable_registration" "true"
      (by simp [annotationData]) hnd
  · intro hne
    have hpos : kcd.length > 0 := List.length_pos.mpr hne
    exact mergeFold_fst_mem _ addon.annotations false "bootstrapSecret"
      (addonName ++ "-bootstrap-kubeconfig") (by simp [annotationData, hpos]) hnd
  · intro he
    subst he
    exact mergeFold_fst_not_mem _ addon.annotations false "bootstrapSecret"
      (by simp [annotationData])
  · intro k hk
    exact mergeFold_fst_not_mem _ addon.annotations false k hk
  · rw [addonConfigSync_some, hsnd]
    by_cases hany : (annotationData true signer installNamespace addonName kcd).any
        (fun kv => getA addon.annotations kv.1 ≠ kv.2) = true
    · rw [if_pos hany]
      constructor
      · intro _
        rcases List.any_eq_true.mp hany with ⟨kv, hkv, hdec⟩
        exact ⟨kv, hkv, by simpa using hdec⟩
      · intro _
        simp
    · rw [if_neg hany]
      constructor
      · intro h
        exact absurd rfl h
      · intro ⟨kv, hkv, hne⟩
        exact absurd (List.any_eq_true.mpr ⟨kv, hkv, by simpa using hne⟩) hany
  · rw [addonConfigSync_some, hsnd]
    by_cases hany : (annotationData true signer installNamespace addonName kcd).any
        (fun kv => getA addon.annotations kv.1 ≠ kv.2) = true
    · rw [if_pos hany]
      intro _
      rfl
    · rw [if_neg hany]
      intro h
      exact absurd rfl h

/-- Witness instantiating `configAnnotator_exact_merge` on an add-on
with no prior annotations and a non-empty bootstrap kubeconfig. -/
theorem configAnnotator_exact_merge_witness :
    getA (mergedConfigAnnotations "test-signer" "default" "testaddon"
      { witnessAddon with annotations := [] } [7]) "signer" = "test-signer" ∧
    getA (mergedConfigAnnotations "test-signer" "default" "testaddon"
      { witnessAddon with annotations := [] } [7]) "bootstrapSecret" =
      "testaddon" ++ "-bootstrap-kubeconfig" :=
  ⟨(configAnnotator_exact_merge "test-signer" "default" "testaddon"
      { witnessAddon with annotations := [] } [7]).1,
    (configAnnotator_exact_merge "test-signer" "default" "testaddon"
      { witnessAddon with annotations := [] } [7]).2.2.2.1 (by decide)⟩

/-! ## Spoke certificate manager
(`pkg/spoke/controllers/clientcertmanager/certificate_manager_controller.go`,
annotation-driven variant) -/

/-- A write or effect issued by the certificate-manager reconcile.
`startCertManager` abstracts `newCertificateManager` + `start` — the
identity-secret reads and the bootstrap/rotation CSR controllers spun up
past the early returns; its internals are irrelevant to the claims. -/
inductive CertMgrWrite where
  | updateAddon (a : Addon)
  | startCertManager (addonName : String)
deriving DecidableEq, Repr

/-- `certificateManagerController.sync`.  The stop of a running
rotation controller on deletion is process-local (no storage write). -/
def certManagerSync (addonOpt : Option Addon) : List CertMgrWrite :=
  match addonOpt with
  | none => []
  | some addon =>
    if addon.annotations.length = 0 then []
    else if getA addon.annotations "enable_registration" = "false" then []
    else if addon.deletionTimestamp = none ∧
        spokeRegistrationFinalizer ∉ addon.finalizers then
      [CertMgrWrite.updateAddon
        { addon with finalizers := addon.finalizers ++ [spokeRegistrationFinalizer] }]
    else if addon.deletionTimestamp ≠ none then
      match removeFinalizerBody spokeRegistrationFinalizer addon with
      | some a' => [CertMgrWrite.updateAddon a']
      | none => []
    else [CertMgrWrite.startCertManager addon.name]

/-- An add-on whose annotations do not mention `enable_registration`
at all (so the annotation map is non-empty and the value reads `""`). -/
def c7Addon : Addon :=
  { name := "testaddon"
    namespace_ := "testcluster"
    annotations := [("foo", "bar")]
    finalizers := []
    deletionTimestamp := none
    status := ⟨[]⟩ }

/-- Counterexample to C7 as stated: `c7Addon` does not set
`enable_registration` to `"true"`, yet the reconcile issues a finalizer
update write (the code only returns early on the exact string
`"false"`, or on an empty annotation map). -/
theorem certManager_nontrue_annotation_writes :
    getA c7Addon.annotations "enable_registration" ≠ "true" ∧
    certManagerSync (some c7Addon) =
      [CertMgrWrite.updateAddon
        { c7Addon with finalizers := [spokeRegistrationFinalizer] }] := by
  constructor
  · decide
  · rfl

/-- C7 (amended): for every add-on whose annotation map is empty or
sets `enable_registration` to `"false"`, the certificate-manager
reconcile returns without performing any writes. -/
theorem certManager_skip_unregistered (addon : Addon)
    (h : addon.annotations = [] ∨ getA addon.annotations "enable_registration" = "false") :
    certManagerSync (some addon) = [] := by
  rcases h with h | h
  · simp [certManagerSync, h]
  · simp only [certManagerSync]
    by_cases hlen : addon.annotations.length = 0
    · rw [if_pos hlen]
    · rw [if_neg hlen, if_pos h]

/-- Witness instantiating `certManager_skip_unregistered` on an add-on
explicitly annotated `enable_registration = "false"`. -/
theorem certManager_skip_unregistered_witness :
    certManagerSync
      (some { c7Addon with annotations := [("enable_registration", "false")] }) = [] :=
  certManager_skip_unregistered
    { c7Addon with annotations := [("enable_registration", "false")] }
    (Or.inr (by decide))

/-! ## CSR approving controller
(`pkg/addonmanager/registration/csrapprove.go`) -/

/-- `helpers.AgentGroup`. -/
def AgentGroup (clusterName addonName : String) : String :=
  "system:open-cluster-management:cluster:" ++ clusterName ++ ":addon:" ++ addonName

/-- `spokeClusterNameLabel`. -/
def spokeClusterNameLabel : String := "open-cluster-management.io/cluster-name"

/-- The subject of a parsed x509 certificate request (the output of
`x509.ParseCertificateRequest`, which is external to this repository). -/
structure CertRequestInfo where
  organizations : List String
  commonName : String
deriving DecidableEq, Repr

/-- The outcome of `pem.Decode` on `Spec.Request`: no block, or a block
with a type whose bytes may or may not parse as a certificate
request. -/
inductive PemBlock where
  | noBlock
  | block (blockType : String) (parsed : Option CertRequestInfo)
deriving DecidableEq, Repr

/-- A `CertificateSigningRequest`, restricted to the fields the
controller reads; `conditions` lists the condition types in order
(only `"Approved"` / `"Denied"` matter to the code). -/
structure CSR where
  name : String
  labels : List (String × String)
  signerName : String
  request : PemBlock
  username : String
  conditions : List String
deriving DecidableEq, Repr

/-- `IsCSRInTerminalState` (exported check function): any Approved or
Denied condition. -/
def IsCSRInTerminalState (csr : CSR) : Bool :=
  csr.conditions.any (fun c => c == "Approved" || c == "Denied")

/-- The loop body of `isCSRApproved`: a Denied condition returns false
immediately; an Approved one latches the flag. -/
def isCSRApprovedScan (approved : Bool) : List String → Bool
  | [] => approved
  | c :: rest =>
    if c = "Denied" then false
    else if c = "Approved" then isCSRApprovedScan true rest
    else isCSRApprovedScan approved rest

/-- `isCSRApproved`. -/
def isCSRApproved (csr : CSR) : Bool :=
  isCSRApprovedScan false csr.conditions

/-- `csrApprovingController.isSpokeClusterClientCertRenewal`: cluster
label present; signer name matches the configured signer unless absent;
the PEM block is a `CERTIFICATE REQUEST` that parses; exactly one
subject Organization equal to the agent group; CommonName prefixed by
that Organization; Username equal to the CommonName. -/
def isSpokeClusterClientCertRenewal (signer addonName : String) (csr : CSR) : Bool :=
  match lookupA csr.labels spokeClusterNameLabel with
  | none => false
  | some spokeClusterName =>
    if csr.signerName.length ≠ 0 ∧ csr.signerName ≠ signer then false
    else
      match csr.request with
      | .noBlock => false
      | .block blockType parsed =>
        if blockType ≠ "CERTIFICATE REQUEST" then false
        else
          match parsed with
          | none => false
          | some x509cr =>
            match x509cr.organizations with
            | [organization] =>
              if organization ≠ AgentGroup spokeClusterName addonName then false
              else if ¬List.isPrefixOf organization.data x509cr.commonName.data then false
              else csr.username = x509cr.commonName
            | _ => false

/-- The check-function loop of `sync`: each function must return true;
an empty list yields false (`var approved bool` stays false). -/
def chainAll : List (CSR → Bool) → CSR → Bool
  | [], _ => false
  | [f], csr => f csr
  | f :: rest, csr => if f csr then chainAll rest csr else false

/-- `renewCheckFuncs` as assembled by `NewCSRApprovingController`:
`IsCSRInTerminalState` first, then the client-cert-renewal check. -/
def renewCheckFuncs (signer addonName : String) : List (CSR → Bool) :=
  [fun csr => IsCSRInTerminalState csr, isSpokeClusterClientCertRenewal signer addonName]

/-- The renewal chain the code evaluates. -/
def codeRenewalChain (signer addonName : String) (csr : CSR) : Bool :=
  chainAll (renewCheckFuncs signer addonName) csr

/-- Outcome of one CSR reconcile: no write, a returned error, or an
`UpdateApproval` write appending an Approved condition. -/
inductive CSRSyncResult where
  | noWrite
  | errorOut
  | approveWrite (c : CSR)
deriving DecidableEq, Repr

/-- `csrApprovingController.sync`.  `sarAllowed` is the
`SubjectAccessReview` verdict when consulted (`none` models a review
error). -/
def csrSync (signer addonName : String) (approveCheckFuncs : List (CSR → Bool))
    (sarAllowed : Option Bool) (csrOpt : Option CSR) : CSRSyncResult :=
  match csrOpt with
  | none => .noWrite
  | some csr =>
    if isCSRApproved csr then .noWrite
    else
      if ¬chainAll approveCheckFuncs csr ∧
          ¬codeRenewalChain signer addonName csr then .noWrite
      else
        if codeRenewalChain signer addonName csr then
          match sarAllowed with
          | none => .errorOut
          | some false => .noWrite
          | some true =>
            .approveWrite { csr with conditions := csr.conditions ++ ["Approved"] }
        else .approveWrite { csr with conditions := csr.conditions ++ ["Approved"] }

lemma codeRenewalChain_eq (signer addonName : String) (csr : CSR) :
    codeRenewalChain signer addonName csr =
      (IsCSRInTerminalState csr &&
        isSpokeClusterClientCertRenewal signer addonName csr) := by
  cases h : IsCSRInTerminalState csr <;>
    simp [codeRenewalChain, renewCheckFuncs, chainAll, h]

/-- The agent user name used in the CSR counterexamples. -/
def wAgentUser : String := AgentGroup "testcluster" "testaddon" ++ ":agent:agent"

/-- A Denied CSR whose renewal fields all validate. -/
def c1DeniedCSR : CSR :=
  { name := "addon-testaddon-testcluster-x"
    labels := [(spokeClusterNameLabel, "testcluster")]
    signerName := "kubernetes.io/kube-apiserver-client"
    request := PemBlock.block "CERTIFICATE REQUEST"
      (some ⟨[AgentGroup "testcluster" "testaddon"], wAgentUser⟩)
    username := wAgentUser
    conditions := ["Denied"] }

/-- C1 (code bug): a CSR carrying only an Approved condition is indeed
skipped, but a CSR already carrying a Denied condition — a terminal
state — is re-approved by the reconcile whenever its renewal fields
validate and the subject-access-review allows: `IsCSRInTerminalState`
sits in `renewCheckFuncs` with positive polarity instead of gating an
early return, so the write the claim forbids happens. -/
theorem csr_denied_csr_is_reapproved :
    csrSync "kubernetes.io/kube-apiserver-client" "testaddon" [] (some true)
      (some { c1DeniedCSR with conditions := ["Approved"] }) = CSRSyncResult.noWrite ∧
    IsCSRInTerminalState c1DeniedCSR = true ∧
    csrSync "kubernetes.io/kube-apiserver-client" "testaddon" [] (some true)
      (some c1DeniedCSR) =
      CSRSyncResult.approveWrite { c1DeniedCSR with conditions := ["Denied", "Approved"] } :=
  ⟨rfl, rfl, rfl⟩

/-- The same CSR with no conditions: not in a terminal state. -/
def c2RenewalCSR : CSR := { c1DeniedCSR with conditions := [] }

/-- C2 (code bug): the renewal chain the code evaluates holds iff the
CSR IS in a terminal state (and the other renewal conditions hold) —
the opposite polarity of the claim's "not in a terminal state": on a
non-terminal CSR with every other condition satisfied the chain is
false, and on the Denied CSR it is true. -/
theorem csr_renewal_chain_requires_terminal :
    IsCSRInTerminalState c2RenewalCSR = false ∧
    isSpokeClusterClientCertRenewal "kubernetes.io/kube-apiserver-client" "testaddon"
      c2RenewalCSR = true ∧
    codeRenewalChain "kubernetes.io/kube-apiserver-client" "testaddon"
      c2RenewalCSR = false ∧
    codeRenewalChain "kubernetes.io/kube-apiserver-client" "testaddon"
      c1DeniedCSR = true :=
  ⟨rfl, rfl, rfl, rfl⟩

end AddonFramework
